import Mathlib

/-
  Shallow embedding of the bmrb-io/doi-assignment scripts:
    src/anvl.py   : ANVL escaping codec (escape_string, unescape_string,
                    escape_dictionary, unescape_dictionary)
    src/assign.py : EZIDSession (determine_doi, withdraw, create_or_update_doi,
                    get_entry_metadata)

  Python strings are modelled as Lean `String` / `List Char` (code points);
  Python exceptions as an inductive `PyExc` together with `Except`;
  network traffic as explicit lists of `NetOp` operations.
-/

namespace DoiAssignment

/-- Python exception classes that the scripts can raise or catch.
`parseError` represents the spec's hypothesised `ParseError` class; the code
itself never constructs it (no such class exists in the repository). -/
inductive PyExc where
  | httpError
  | ioError
  | valueError
  | indexError
  | keyError
  | parseError
deriving DecidableEq

/-- `isinstance(e, requests.HTTPError)`. -/
def isHTTPError : PyExc → Bool
  | .httpError => true
  | _ => false

/-- `isinstance(e, IOError)`; in Python 3 `requests.HTTPError` is a subclass of
`IOError` (= `OSError`). -/
def isIOError : PyExc → Bool
  | .httpError => true
  | .ioError => true
  | _ => false

/-- `isinstance(e, LookupError)`: `IndexError` and `KeyError` are its
subclasses. -/
def isLookupError : PyExc → Bool
  | .indexError => true
  | .keyError => true
  | _ => false

/-! ## src/anvl.py -/

/-- The characters the ANVL regex `[%:\r\n]` matches. -/
def isSpecial (c : Char) : Bool :=
  c = '%' || c = ':' || c = '\r' || c = '\n'

/-- Upper-case hexadecimal digit for `n < 16`, as produced by `"%02X"`. -/
def hexDigitUpper (n : Nat) : Char :=
  if n < 10 then Char.ofNat (48 + n) else Char.ofNat (55 + n)

/-- Replacement performed by `re.sub("[%:\r\n]", lambda c: "%%%02X" % ord(..), s)`
on one character: the four special characters expand to a percent escape, all
other characters are left unchanged. -/
def escChar (c : Char) : List Char :=
  if isSpecial c then ['%', hexDigitUpper (c.toNat / 16), hexDigitUpper (c.toNat % 16)]
  else [c]

/-- `anvl.escape_string`. -/
def escape_string (s : String) : String :=
  ⟨s.data.flatMap escChar⟩

/-- Matches the regex class `[0-9A-Fa-f]`. -/
def isHexDigitChar (c : Char) : Bool :=
  ('0' ≤ c && c ≤ '9') || ('A' ≤ c && c ≤ 'F') || ('a' ≤ c && c ≤ 'f')

/-- Numeric value of a hexadecimal digit. -/
def hexVal (c : Char) : Nat :=
  if '0' ≤ c && c ≤ '9' then c.toNat - 48
  else if 'A' ≤ c && c ≤ 'F' then c.toNat - 55
  else c.toNat - 87

/-- Left-to-right non-overlapping replacement of `%hh` tokens performed by
`re.sub("%([0-9A-Fa-f][0-9A-Fa-f])", lambda m: chr(int(m.group(1), 16)), s)`. -/
def unescChars : List Char → List Char
  | [] => []
  | '%' :: a :: b :: rest =>
    if isHexDigitChar a && isHexDigitChar b then
      Char.ofNat (16 * hexVal a + hexVal b) :: unescChars rest
    else '%' :: unescChars (a :: b :: rest)
  | c :: rest => c :: unescChars rest

/-- `anvl.unescape_string`. -/
def unescape_string (s : String) : String :=
  ⟨unescChars s.data⟩

/-- The whitespace recognised by Python's `str.strip()`
(`Py_UNICODE_ISSPACE`): TAB..CR (9-13), FS..US plus space (28-32), NEL
(0x85), NBSP (0xA0), U+1680, U+2000-U+200A, U+2028, U+2029, U+202F,
U+205F and U+3000. -/
def isPyWS (c : Char) : Bool :=
  (9 ≤ c.toNat && c.toNat ≤ 13) || (28 ≤ c.toNat && c.toNat ≤ 32) ||
  c.toNat = 133 || c.toNat = 160 || c.toNat = 5760 ||
  (8192 ≤ c.toNat && c.toNat ≤ 8202) || c.toNat = 8232 || c.toNat = 8233 ||
  c.toNat = 8239 || c.toNat = 8287 || c.toNat = 12288

/-- Python `str.strip()` on a character list. -/
def pyStrip (l : List Char) : List Char :=
  ((l.dropWhile isPyWS).reverse.dropWhile isPyWS).reverse

/-- One `"%s: %s" % (escape_string(name), escape_string(value))` line. -/
def escLine (kv : String × String) : String :=
  escape_string kv.1 ++ ": " ++ escape_string kv.2

/-- Python `"\n".join(lines)`. -/
def joinLines : List String → String
  | [] => ""
  | [l] => l
  | l :: l2 :: rest => l ++ "\n" ++ joinLines (l2 :: rest)

/-- `anvl.escape_dictionary`: the dictionary is modelled as its (insertion
ordered) association list. -/
def escape_dictionary (d : List (String × String)) : String :=
  joinLines (d.map escLine)

/-- The line boundaries of Python's `str.splitlines()`: LF, VT, FF, CR
(10-13), FS, GS, RS (28-30), NEL (0x85), U+2028 and U+2029; `\r\n` counts
as one boundary. -/
def isLineBreak (c : Char) : Bool :=
  c.toNat = 10 || c.toNat = 11 || c.toNat = 12 || c.toNat = 13 ||
  c.toNat = 28 || c.toNat = 29 || c.toNat = 30 || c.toNat = 133 ||
  c.toNat = 8232 || c.toNat = 8233

/-- Python `str.splitlines()`: split at every `isLineBreak` character,
treating `\r\n` as a single boundary, with no empty trailing line. -/
def splitlinesAux : List Char → List Char → List (List Char)
  | [], acc => if acc.isEmpty then [] else [acc.reverse]
  | '\r' :: '\n' :: rest, acc => acc.reverse :: splitlinesAux rest []
  | c :: rest, acc =>
    if isLineBreak c then acc.reverse :: splitlinesAux rest []
    else splitlinesAux rest (c :: acc)

/-- Python `s.splitlines()`. -/
def pySplitlines (s : String) : List (List Char) :=
  splitlinesAux s.data []

/-- Python `l.split(":", 1)`: `none` when the line holds no colon (the
resulting 1-tuple makes `dict(...)` raise `ValueError`), otherwise the parts
before and after the first colon. -/
def splitOnceColon : List Char → Option (List Char × List Char)
  | [] => none
  | c :: rest =>
    if c = ':' then some ([], rest)
    else
      match splitOnceColon rest with
      | none => none
      | some (k, v) => some (c :: k, v)

/-- `tuple(unescape_string(v).strip() for v in l.split(":", 1))` turned into a
key/value pair, or the `ValueError` that `dict(...)` raises on a 1-tuple. -/
def parseLine (l : List Char) : Except PyExc (String × String) :=
  match splitOnceColon l with
  | none => Except.error PyExc.valueError
  | some (k, v) => Except.ok (⟨pyStrip (unescChars k)⟩, ⟨pyStrip (unescChars v)⟩)

/-- `dict(...)` consuming the line generator: lines are processed left to
right and the first colon-less line raises. -/
def parseLines : List (List Char) → Except PyExc (List (String × String))
  | [] => Except.ok []
  | l :: rest =>
    match parseLine l with
    | Except.error e => Except.error e
    | Except.ok kv =>
      match parseLines rest with
      | Except.error e => Except.error e
      | Except.ok kvs => Except.ok (kv :: kvs)

/-- `anvl.unescape_dictionary`.  The resulting dictionary is modelled as the
list of key/value pairs in line order (Python's `dict` keeps insertion order;
the inputs of interest have distinct keys). -/
def unescape_dictionary (s : String) : Except PyExc (List (String × String)) :=
  parseLines (pySplitlines s)

/-! ## EZIDSession.determine_doi -/

/-- Python `str.startswith` (a prefix test on code points). -/
def pyStartswith (s pre : String) : Bool :=
  pre.data.isPrefixOf s.data

/-- Python `str.upper` restricted to character-wise upcasing (accession codes
are ASCII). -/
def pyUpper (s : String) : String :=
  ⟨s.data.map Char.toUpper⟩

/-- `EZIDSession.determine_doi`; the configured `shoulder` is passed
explicitly. -/
def determine_doi (shoulder entry : String) : String :=
  if pyStartswith entry "bmse" || pyStartswith entry "bmst" then
    shoulder ++ pyUpper entry
  else if pyStartswith entry "bmr" then
    shoulder ++ pyUpper entry
  else
    shoulder ++ "BMR" ++ entry

/-! ## EZIDSession.get_entry_metadata -/

/-- One row of the `entry_author` loop after
`filter(['_Entry_author.Family_name', '_Entry_author.Given_name',
'_Entry_author.Middle_initials'])`. -/
structure AuthorRow where
  family : String
  given : String
  middle : String
deriving DecidableEq

/-- The pieces of the `pynmrstar` entry that `get_entry_metadata` reads.
`releaseLoops` are the loops of category `release`, each given as its rows
`(date, detail)` after `sort_rows('release_number')` and
`get_tag(['date', 'detail'])` (sorting is done inside the pynmrstar library).
`authorLoops` are the loops of category `entry_author`; `hasMiddleInitials`
says whether the `Middle_initials` tag is present (its absence makes the
first `filter` raise and the code fall back to family/given only).
`titleTags` is `ent.get_tag("entry.title")`. -/
structure BibRecord where
  releaseLoops : List (List (String × String))
  authorLoops : List (List AuthorRow)
  hasMiddleInitials : Bool
  titleTags : List String
deriving DecidableEq

/-- One `<date>` element: its `dateType` attribute, text, and optional
`dateInformation` attribute. -/
structure DateEvent where
  dateType : String
  date : String
  dateInformation : Option String
deriving DecidableEq

/-- The DataCite `resource` document assembled by `get_entry_metadata`,
field by field. -/
structure MetadataDoc where
  identifier : String
  creators : List String
  title : String
  publisher : String
  publicationYear : String
  dates : List DateEvent
  resourceTypeGeneral : String
deriving DecidableEq

/-- `pynmrstar.definitions.NULL_VALUES` (the string members; `None` has no
counterpart here because loop tag values are strings). -/
def nullValues : List String := ["", ".", "?"]

/-- Python `s[:4]`. -/
def pyTake4 (s : String) : String :=
  ⟨s.data.take 4⟩

/-- Python `s.replace("\n", "")`. -/
def pyStripNewlines (s : String) : String :=
  ⟨s.data.filter (fun c => ¬ c = '\n')⟩

/-- `EZIDSession.get_entry_metadata`.  `rec` is `none` when
`pynmrstar.Entry.from_database` fails (the code re-raises `ValueError`).
Failure order follows the code: `get_loops_by_category('release')[0]`,
then `get_loops_by_category('entry_author')[0]`, then
`get_tag("entry.title")[0]`, then `release_loop[0]` (at `publicationYear`).
Every `[0]` on an empty list raises `IndexError`. -/
def get_entry_metadata (shoulder entry : String) (rec : Option BibRecord) :
    Except PyExc MetadataDoc :=
  match rec with
  | none => Except.error PyExc.valueError
  | some ent =>
    match ent.releaseLoops.head? with
    | none => Except.error PyExc.indexError
    | some releaseRows =>
      match ent.authorLoops.head? with
      | none => Except.error PyExc.indexError
      | some authorRows =>
        let authors :=
          if ent.hasMiddleInitials then
            authorRows.map (fun a =>
              if ¬ a.middle = "" ∧ ¬ a.middle = "." then
                (a.family, a.given ++ " " ++ a.middle)
              else (a.family, a.given))
          else authorRows.map (fun a => (a.family, a.given))
        let creators := authors.map (fun a => a.1 ++ ", " ++ a.2)
        match ent.titleTags.head? with
        | none => Except.error PyExc.indexError
        | some t =>
          match releaseRows.head? with
          | none => Except.error PyExc.indexError
          | some first =>
            Except.ok
              { identifier := determine_doi shoulder entry
                creators := creators
                title := pyStripNewlines t
                publisher := "Biological Magnetic Resonance Bank"
                publicationYear := pyTake4 first.1
                dates :=
                  ⟨"Available", first.1,
                    if ¬ first.2 = "" ∧ ¬ first.2 ∈ nullValues then some first.2
                    else none⟩ ::
                  releaseRows.tail.map (fun r => ⟨"Updated", r.1, some r.2⟩)
                resourceTypeGeneral := "Dataset" }

/-! ## Network operations of create_or_update_doi and withdraw -/

/-- A request issued against the registry. -/
inductive NetOp where
  | getMetadata (doi : String)
  | putMetadata (doi : String) (doc : MetadataDoc)
  | putDoi (doi : String) (payload : String)
  | post (url : String) (payload : String)
deriving DecidableEq

/-- A request that writes registry state (everything except a GET). -/
def isWriteOp : NetOp → Bool
  | .getMetadata _ => false
  | _ => true

/-- A request that only reads registry state. -/
def isReadOp : NetOp → Bool
  | .getMetadata _ => true
  | _ => false

/-- The per-prefix content URL chosen inside `create_or_update_doi`. -/
def content_url (entry : String) : String :=
  if pyStartswith entry "bmse" then
    "https://bmrb.io/metabolomics/mol_summary/show_data.php?id=" ++ entry
  else if pyStartswith entry "bmst" then
    "https://bmrb.io/metabolomics/mol_summary/show_theory.php?id=" ++ entry
  else
    "https://bmrb.io/data_library/summary/?bmrbId=" ++ entry

/-- The registry requests issued by one (non-retrying) pass of the body of
`create_or_update_doi` when the HTTP calls succeed: nothing when building the
metadata raises, otherwise the metadata PUT followed by the DOI/URL PUT.
The body never issues a GET of the existing record. -/
def create_or_update_ops (shoulder entry : String) (rec : Option BibRecord) :
    List NetOp :=
  match get_entry_metadata shoulder entry rec with
  | Except.error _ => []
  | Except.ok doc =>
    let doi := determine_doi shoulder entry
    [NetOp.putMetadata doi doc,
     NetOp.putDoi doi ("doi=" ++ doi ++ "\nurl=" ++ content_url entry)]

/-- The registry requests issued by `EZIDSession.withdraw`: a single
unconditional POST of the status transition. -/
def withdraw_ops (shoulder entry : String) : List NetOp :=
  [NetOp.post ("https://ez.datacite.org/id/" ++ determine_doi shoulder entry)
    (escape_dictionary [("_status", "unavailable | withdrawn by author")])]

/-! ## Retry loop of create_or_update_doi -/

/-- How one call of `create_or_update_doi` ends (all three are logged, none
raised). -/
inductive ReconcileOutcome where
  | created
  | failedLogged
  | ioLogged
deriving DecidableEq

instance {ε α : Type} [DecidableEq ε] [DecidableEq α] : DecidableEq (Except ε α) :=
  fun a b =>
  match a, b with
  | Except.error e, Except.error f => decidable_of_iff (e = f) (by simp)
  | Except.ok x, Except.ok y => decidable_of_iff (x = y) (by simp)
  | Except.error _, Except.ok _ => isFalse (fun h => Except.noConfusion h)
  | Except.ok _, Except.error _ => isFalse (fun h => Except.noConfusion h)

/-- Observable behaviour of one (possibly retrying) call:
number of attempts, the `time.sleep(timeout)` retry delays in order, and the
final result (`Except.error` = an exception escapes to the caller). -/
structure RunResult where
  attempts : Nat
  sleeps : List Nat
  result : Except PyExc ReconcileOutcome
deriving DecidableEq

/-- `EZIDSession.create_or_update_doi entry timeout`.  `body k` is the
outcome of attempt `k` of the try block (metadata build plus the two PUTs).
The code doubles `timeout` on entry, and on `requests.HTTPError` sleeps the
doubled value and recurses with it while it is ≤ 128; `IOError` is logged
without retry; any other exception escapes.  The unconditional
`finally: time.sleep(1)` is a fixed cost per attempt and is not part of the
retry delays recorded here. -/
def create_or_update_doi (body : Nat → Except PyExc Unit) (t k : Nat)
    (ht : 0 < t) : RunResult :=
  match body k with
  | Except.ok _ => ⟨1, [], Except.ok ReconcileOutcome.created⟩
  | Except.error e =>
    if isHTTPError e then
      if h : t * 2 ≤ 128 then
        let r := create_or_update_doi body (t * 2) (k + 1) (by omega)
        ⟨r.attempts + 1, t * 2 :: r.sleeps, r.result⟩
      else ⟨1, [], Except.ok ReconcileOutcome.failedLogged⟩
    else if isIOError e then ⟨1, [], Except.ok ReconcileOutcome.ioLogged⟩
    else ⟨1, [], Except.error e⟩
termination_by 129 - t
decreasing_by omega

/-!
## Theorems
-/

/-- C4: codes starting with `bmse`, `bmst` or `bmr` map to
`shoulder ++ uppercase(code)`; all other codes map to
`shoulder ++ "BMR" ++ code`; the function is a pure (hence deterministic)
total Lean function, mirroring that calling it twice yields the same string
and that no input raises. -/
theorem determine_doi_first_match (shoulder entry : String) :
    determine_doi shoulder entry = determine_doi shoulder entry ∧
    ((pyStartswith entry "bmse" || pyStartswith entry "bmst" ||
        pyStartswith entry "bmr") = true →
      determine_doi shoulder entry = shoulder ++ pyUpper entry) ∧
    ((pyStartswith entry "bmse" || pyStartswith entry "bmst" ||
        pyStartswith entry "bmr") = false →
      determine_doi shoulder entry = shoulder ++ "BMR" ++ entry) := by
  refine ⟨rfl, ?_, ?_⟩ <;> intro h <;>
    simp only [Bool.or_eq_true, Bool.or_eq_false_iff] at h <;>
    unfold determine_doi
  · rcases h with (h | h) | h <;> simp [h]
  · obtain ⟨⟨h1, h2⟩, h3⟩ := h
    simp [h1, h2, h3]

/-- Witness for C4 at the spec's scenarios A and B. -/
theorem determine_doi_first_match_witness :
    determine_doi "10.13018/" "bmse000123" = "10.13018/" ++ pyUpper "bmse000123" ∧
    determine_doi "10.13018/" "15000" = "10.13018/" ++ "BMR" ++ "15000" :=
  ⟨(determine_doi_first_match "10.13018/" "bmse000123").2.1 (by decide),
   (determine_doi_first_match "10.13018/" "15000").2.2 (by decide)⟩

/-! ### Codec lemmas -/

theorem escChar_eq_self (c : Char) (h : isSpecial c = false) : escChar c = [c] := by
  simp [escChar, h]

theorem isSpecial_cases (c : Char) (h : isSpecial c = true) :
    c = '%' ∨ c = ':' ∨ c = '\r' ∨ c = '\n' := by
  simp [isSpecial] at h
  tauto

theorem not_special_ne (c : Char) (h : isSpecial c = false) :
    ¬ c = '%' ∧ ¬ c = ':' ∧ ¬ c = '\r' ∧ ¬ c = '\n' := by
  simp [isSpecial] at h
  tauto

theorem unescChars_cons_ne (c : Char) (l : List Char) (h : ¬ c = '%') :
    unescChars (c :: l) = c :: unescChars l := by
  cases l with
  | nil => simp [unescChars, h]
  | cons a l2 =>
    cases l2 with
    | nil => simp [unescChars, h]
    | cons b l3 => simp [unescChars, h]

theorem unescChars_pct_hex (a b : Char) (l : List Char)
    (ha : isHexDigitChar a = true) (hb : isHexDigitChar b = true) :
    unescChars ('%' :: a :: b :: l) =
      Char.ofNat (16 * hexVal a + hexVal b) :: unescChars l := by
  simp [unescChars, ha, hb]

theorem unescChars_special (sc h1 h2 : Char) (l : List Char)
    (he : escChar sc = ['%', h1, h2])
    (hh1 : isHexDigitChar h1 = true) (hh2 : isHexDigitChar h2 = true)
    (hv : Char.ofNat (16 * hexVal h1 + hexVal h2) = sc) :
    unescChars (escChar sc ++ l) = sc :: unescChars l := by
  rw [he, List.cons_append, List.cons_append, List.cons_append, List.nil_append]
  rw [unescChars_pct_hex _ _ _ hh1 hh2, hv]

theorem unescChars_escChar (c : Char) (l : List Char) :
    unescChars (escChar c ++ l) = c :: unescChars l := by
  by_cases hs : isSpecial c = true
  · rcases isSpecial_cases c hs with h | h | h | h <;> subst h
    · exact unescChars_special _ '2' '5' l (by decide) (by decide) (by decide) (by decide)
    · exact unescChars_special _ '3' 'A' l (by decide) (by decide) (by decide) (by decide)
    · exact unescChars_special _ '0' 'D' l (by decide) (by decide) (by decide) (by decide)
    · exact unescChars_special _ '0' 'A' l (by decide) (by decide) (by decide) (by decide)
  · have hs2 : isSpecial c = false := by simpa using hs
    rw [escChar_eq_self c hs2, List.singleton_append]
    exact unescChars_cons_ne c l (not_special_ne c hs2).1

theorem unescChars_flatMap (l : List Char) :
    unescChars (l.flatMap escChar) = l := by
  induction l with
  | nil => rfl
  | cons c rest ih => rw [List.flatMap_cons, unescChars_escChar, ih]

theorem unescape_escape_string (s : String) :
    unescape_string (escape_string s) = s := by
  cases s with
  | mk data =>
    show String.mk (unescChars (data.flatMap escChar)) = String.mk data
    rw [unescChars_flatMap]

theorem escChar_chars_ok (c : Char) :
    ∀ x ∈ escChar c, ¬ x = ':' ∧ ¬ x = '\r' ∧ ¬ x = '\n' := by
  by_cases hs : isSpecial c = true
  · rcases isSpecial_cases c hs with h | h | h | h <;> subst h <;> decide
  · have hs2 : isSpecial c = false := by simpa using hs
    rw [escChar_eq_self c hs2]
    intro x hx
    rw [List.mem_singleton] at hx
    rw [hx]
    exact ⟨(not_special_ne c hs2).2.1, (not_special_ne c hs2).2.2.1,
      (not_special_ne c hs2).2.2.2⟩

theorem escape_string_chars (s : String) :
    ∀ x ∈ (escape_string s).data, ¬ x = ':' ∧ ¬ x = '\r' ∧ ¬ x = '\n' := by
  intro x hx
  have hx2 : x ∈ s.data.flatMap escChar := hx
  rw [List.mem_flatMap] at hx2
  obtain ⟨c, _, hc⟩ := hx2
  exact escChar_chars_ok c x hc

theorem escLine_data (k v : String) :
    (escLine (k, v)).data =
      (escape_string k).data ++ ':' :: ' ' :: (escape_string v).data := by
  show ((escape_string k ++ ": ") ++ escape_string v).data = _
  rw [String.data_append, String.data_append]
  rw [show (": ").data = [':', ' '] from rfl]
  simp

theorem escape_string_no_break (s : String)
    (hs : ∀ x ∈ s.data, isLineBreak x = false ∨ x = '\r' ∨ x = '\n') :
    ∀ x ∈ (escape_string s).data, isLineBreak x = false := by
  intro x hx
  have hx2 : x ∈ s.data.flatMap escChar := hx
  rw [List.mem_flatMap] at hx2
  obtain ⟨c, hc, hmem⟩ := hx2
  by_cases hsp : isSpecial c = true
  · rcases isSpecial_cases c hsp with h | h | h | h <;> subst h <;>
      clear hx hc <;> revert x <;> decide
  · have hsp2 : isSpecial c = false := by simpa using hsp
    rw [escChar_eq_self c hsp2, List.mem_singleton] at hmem
    rw [hmem]
    rcases hs c hc with h | h | h
    · exact h
    · exact absurd h (not_special_ne c hsp2).2.2.1
    · exact absurd h (not_special_ne c hsp2).2.2.2

theorem escLine_no_break (k v : String)
    (hk : ∀ x ∈ k.data, isLineBreak x = false ∨ x = '\r' ∨ x = '\n')
    (hv : ∀ x ∈ v.data, isLineBreak x = false ∨ x = '\r' ∨ x = '\n') :
    ∀ x ∈ (escLine (k, v)).data, isLineBreak x = false := by
  intro x hx
  rw [escLine_data, List.mem_append] at hx
  rcases hx with h | h
  · exact escape_string_no_break k hk x h
  · rw [List.mem_cons] at h
    rcases h with h | h
    · rw [h]; decide
    · rw [List.mem_cons] at h
      rcases h with h | h
      · rw [h]; decide
      · exact escape_string_no_break v hv x h

theorem splitlinesAux_cons_other (c : Char) (l acc : List Char)
    (h : isLineBreak c = false) :
    splitlinesAux (c :: l) acc = splitlinesAux l (c :: acc) := by
  have hc : ¬ c = '\r' := by
    intro e
    subst e
    simp [isLineBreak] at h
  cases l with
  | nil => simp [splitlinesAux, h]
  | cons d l2 => simp [splitlinesAux, hc, h]

theorem splitlinesAux_cons_nl (l acc : List Char) :
    splitlinesAux ('\n' :: l) acc = acc.reverse :: splitlinesAux l [] := by
  cases l with
  | nil => simp [splitlinesAux, isLineBreak]
  | cons d l2 => simp [splitlinesAux, isLineBreak]

theorem splitlinesAux_nil (acc : List Char) :
    splitlinesAux [] acc = if acc.isEmpty then [] else [acc.reverse] := rfl

theorem splitlinesAux_line_append (l : List Char)
    (hl : ∀ x ∈ l, isLineBreak x = false) :
    ∀ acc rest, splitlinesAux (l ++ '\n' :: rest) acc =
      (acc.reverse ++ l) :: splitlinesAux rest [] := by
  induction l with
  | nil =>
    intro acc rest
    rw [List.nil_append, splitlinesAux_cons_nl]
    simp
  | cons c cs ih =>
    intro acc rest
    have hc := hl c (List.mem_cons_self c cs)
    have hcs : ∀ x ∈ cs, isLineBreak x = false :=
      fun x hx => hl x (List.mem_cons_of_mem c hx)
    rw [List.cons_append, splitlinesAux_cons_other c _ _ hc, ih hcs]
    simp

theorem splitlinesAux_line_only (l : List Char)
    (hl : ∀ x ∈ l, isLineBreak x = false) :
    ∀ acc, splitlinesAux l acc =
      if (acc.reverse ++ l).isEmpty then [] else [acc.reverse ++ l] := by
  induction l with
  | nil =>
    intro acc
    rw [splitlinesAux_nil]
    rcases acc with _ | ⟨a, acc2⟩ <;> simp
  | cons c cs ih =>
    intro acc
    have hc := hl c (List.mem_cons_self c cs)
    rw [splitlinesAux_cons_other c _ _ hc,
      ih (fun x hx => hl x (List.mem_cons_of_mem c hx))]
    simp

theorem pySplitlines_joinLines (lines : List String)
    (h1 : ∀ l ∈ lines, ∀ x ∈ l.data, isLineBreak x = false)
    (h2 : ∀ l ∈ lines, ¬ l.data = []) :
    pySplitlines (joinLines lines) = lines.map String.data := by
  induction lines with
  | nil => rfl
  | cons l rest ih =>
    cases rest with
    | nil =>
      show splitlinesAux l.data [] = [l.data]
      rw [splitlinesAux_line_only l.data (h1 l (List.mem_cons_self l [])) []]
      simp [h2 l (List.mem_cons_self l [])]
    | cons l2 rest2 =>
      show splitlinesAux (l ++ "\n" ++ joinLines (l2 :: rest2)).data [] = _
      rw [String.data_append, String.data_append,
        show ("\n").data = ['\n'] from rfl, List.append_assoc, List.singleton_append]
      rw [splitlinesAux_line_append l.data (h1 l (List.mem_cons_self l _)) []]
      have ih2 := ih (fun x hx => h1 x (List.mem_cons_of_mem l hx))
        (fun x hx => h2 x (List.mem_cons_of_mem l hx))
      show _ :: splitlinesAux (joinLines (l2 :: rest2)).data [] = _
      rw [show splitlinesAux (joinLines (l2 :: rest2)).data [] =
        pySplitlines (joinLines (l2 :: rest2)) from rfl, ih2]
      simp

theorem splitOnceColon_eq_none (l : List Char) (h : ¬ ':' ∈ l) :
    splitOnceColon l = none := by
  induction l with
  | nil => rfl
  | cons c cs ih =>
    have hc : ¬ c = ':' := fun e => h (List.mem_cons.mpr (Or.inl e.symm))
    have hcs : ¬ ':' ∈ cs := fun m => h (List.mem_cons_of_mem c m)
    simp [splitOnceColon, hc, ih hcs]

theorem splitOnceColon_append (k rest : List Char) (hk : ¬ ':' ∈ k) :
    splitOnceColon (k ++ ':' :: rest) = some (k, rest) := by
  induction k with
  | nil => simp [splitOnceColon]
  | cons c cs ih =>
    have hc : ¬ c = ':' := fun e => hk (List.mem_cons.mpr (Or.inl e.symm))
    have hcs : ¬ ':' ∈ cs := fun m => hk (List.mem_cons_of_mem c m)
    rw [List.cons_append]
    simp [splitOnceColon, hc, ih hcs]

theorem dropWhile_eq_self_of_pyStrip (l : List Char) (h : pyStrip l = l) :
    l.dropWhile isPyWS = l := by
  have hsub : List.Sublist (l.dropWhile isPyWS) l :=
    (List.dropWhile_suffix isPyWS).sublist
  apply hsub.eq_of_length_le
  have h1 : (pyStrip l).length = l.length := by rw [h]
  unfold pyStrip at h1
  rw [List.length_reverse] at h1
  have h2 : ((l.dropWhile isPyWS).reverse.dropWhile isPyWS).length ≤
      (l.dropWhile isPyWS).reverse.length :=
    (List.dropWhile_suffix isPyWS).sublist.length_le
  rw [List.length_reverse] at h2
  omega

theorem pyStrip_eq_self_parts (l : List Char) (h : pyStrip l = l) :
    l.dropWhile isPyWS = l ∧ (l.reverse.dropWhile isPyWS).reverse = l := by
  have hd := dropWhile_eq_self_of_pyStrip l h
  refine ⟨hd, ?_⟩
  have heq : pyStrip l = ((l.dropWhile isPyWS).reverse.dropWhile isPyWS).reverse := rfl
  rw [hd] at heq
  rw [← heq]
  exact h

theorem pyStrip_space (l : List Char) (h : pyStrip l = l) :
    pyStrip (' ' :: l) = l := by
  obtain ⟨hd, he⟩ := pyStrip_eq_self_parts l h
  show ((((' ' :: l).dropWhile isPyWS).reverse.dropWhile isPyWS)).reverse = l
  rw [List.dropWhile_cons]
  rw [show isPyWS ' ' = true from rfl, if_pos rfl]
  rw [hd]
  exact he

theorem parseLine_escLine (k v : String)
    (hk : pyStrip k.data = k.data) (hv : pyStrip v.data = v.data) :
    parseLine (escLine (k, v)).data = Except.ok (k, v) := by
  rw [escLine_data]
  unfold parseLine
  have hnc : ¬ ':' ∈ (escape_string k).data :=
    fun m => (escape_string_chars k ':' m).1 rfl
  rw [splitOnceColon_append _ _ hnc]
  have h1 : unescChars (escape_string k).data = k.data := unescChars_flatMap k.data
  have h2 : unescChars (' ' :: (escape_string v).data) = ' ' :: v.data := by
    rw [unescChars_cons_ne ' ' _ (by decide)]
    rw [show (escape_string v).data = v.data.flatMap escChar from rfl,
      unescChars_flatMap]
  show Except.ok (String.mk (pyStrip (unescChars (escape_string k).data)),
      String.mk (pyStrip (unescChars (' ' :: (escape_string v).data)))) = _
  rw [h1, h2, hk, pyStrip_space v.data hv]

theorem parseLines_map_escLine (d : List (String × String))
    (hd : ∀ kv ∈ d, pyStrip kv.1.data = kv.1.data ∧ pyStrip kv.2.data = kv.2.data) :
    parseLines ((d.map escLine).map String.data) = Except.ok d := by
  induction d with
  | nil => rfl
  | cons kv rest ih =>
    obtain ⟨hk, hv⟩ := hd kv (List.mem_cons_self kv rest)
    have hrest := ih (fun x hx => hd x (List.mem_cons_of_mem kv hx))
    rw [List.map_cons, List.map_cons]
    have hpl : parseLine (escLine kv).data = Except.ok kv :=
      parseLine_escLine kv.1 kv.2 hk hv
    rw [List.map_map] at hrest
    simp [parseLines, hpl, hrest]

theorem parseLine_error_eq (l : List Char) (e : PyExc)
    (h : parseLine l = Except.error e) : e = PyExc.valueError := by
  unfold parseLine at h
  cases hso : splitOnceColon l with
  | none =>
    rw [hso] at h
    injection h with h2
    exact h2.symm
  | some kv =>
    obtain ⟨k2, v2⟩ := kv
    rw [hso] at h
    exact Except.noConfusion h

theorem parseLines_error_of_no_colon (lines : List (List Char)) (l : List Char)
    (hl : l ∈ lines) (hc : ¬ ':' ∈ l) :
    parseLines lines = Except.error PyExc.valueError := by
  induction lines with
  | nil => cases hl
  | cons l0 rest ih =>
    rcases List.mem_cons.mp hl with h | h
    · subst h
      simp [parseLines, parseLine, splitOnceColon_eq_none l hc]
    · cases hpl : parseLine l0 with
      | error e =>
        have he := parseLine_error_eq l0 e hpl
        subst he
        simp [parseLines, hpl]
      | ok kv => simp [parseLines, hpl, ih h]

/-! ### C5: ANVL round trip -/

/-- C5 counterexample: for `d = [("k", " v")]` (whose escaped values contain
no embedded newlines) the round trip strips the value's leading space, so
`unescape_dictionary (escape_dictionary d) ≠ ok d`. -/
theorem anvl_round_trip_refuted :
    unescape_dictionary (escape_dictionary [("k", " v")]) =
      Except.ok [("k", "v")] ∧
    ¬ ([("k", "v")] = [("k", " v")]) := by
  exact ⟨by decide, by decide⟩

/-- C5 amended: `unescape_dictionary (escape_dictionary d) = ok d` for every
string-keyed mapping whose keys and values carry no leading or trailing
Python-`str.strip` whitespace and contain no `str.splitlines` terminator
other than CR and LF.  Both extra hypotheses are forced:
`unescape_dictionary` strips both halves of every line, and a terminator
such as VT or FS survives escaping (only `%`, `:`, CR, LF are escaped) and
splits the rendered line. -/
theorem anvl_round_trip (d : List (String × String))
    (hd : ∀ kv ∈ d,
      (pyStrip kv.1.data = kv.1.data ∧ pyStrip kv.2.data = kv.2.data) ∧
      (∀ x ∈ kv.1.data, isLineBreak x = false ∨ x = '\r' ∨ x = '\n') ∧
      (∀ x ∈ kv.2.data, isLineBreak x = false ∨ x = '\r' ∨ x = '\n')) :
    unescape_dictionary (escape_dictionary d) = Except.ok d := by
  show parseLines (pySplitlines (joinLines (d.map escLine))) = Except.ok d
  rw [pySplitlines_joinLines (d.map escLine) ?hterm ?hnonempty]
  · exact parseLines_map_escLine d (fun kv hkv => (hd kv hkv).1)
  case hterm =>
    intro l hl
    rw [List.mem_map] at hl
    obtain ⟨kv, hkv, hkveq⟩ := hl
    subst hkveq
    exact escLine_no_break kv.1 kv.2 (hd kv hkv).2.1 (hd kv hkv).2.2
  case hnonempty =>
    intro l hl
    rw [List.mem_map] at hl
    obtain ⟨kv, _, hkv⟩ := hl
    subst hkv
    rw [escLine_data]
    simp

/-- Witness for C5 (amended) on a concrete two-entry mapping. -/
theorem anvl_round_trip_witness :
    (∀ kv ∈ [("doi", "10.1"), ("t", "a b")],
      (pyStrip (Prod.fst kv).data = (Prod.fst kv).data ∧
        pyStrip (Prod.snd kv).data = (Prod.snd kv).data) ∧
      (∀ x ∈ (Prod.fst kv).data, isLineBreak x = false ∨ x = '\r' ∨ x = '\n') ∧
      (∀ x ∈ (Prod.snd kv).data, isLineBreak x = false ∨ x = '\r' ∨ x = '\n')) ∧
    unescape_dictionary (escape_dictionary [("doi", "10.1"), ("t", "a b")]) =
      Except.ok [("doi", "10.1"), ("t", "a b")] :=
  ⟨by decide, anvl_round_trip [("doi", "10.1"), ("t", "a b")] (by decide)⟩

/-! ### C9: missing colon -/

/-- C9 counterexample: on the colon-less input `"abc"` the code fails with
`ValueError` (raised by `dict` on a 1-tuple); the repository has no
`ParseError` class at all. -/
theorem unescape_parse_error_refuted :
    unescape_dictionary "abc" = Except.error PyExc.valueError ∧
    ¬ (PyExc.valueError = PyExc.parseError) := by
  exact ⟨by decide, by decide⟩

/-- C9 amended: for every input text containing a line without a colon
separator, `unescape_dictionary` fails, with `ValueError` (not the spec's
`ParseError`, which does not exist in the code). -/
theorem unescape_missing_colon (s : String)
    (h : ∃ l ∈ pySplitlines s, ¬ ':' ∈ l) :
    unescape_dictionary s = Except.error PyExc.valueError := by
  obtain ⟨l, hl, hc⟩ := h
  exact parseLines_error_of_no_colon (pySplitlines s) l hl hc

/-- Witness for C9 (amended): the FS character splits `"a\x1cb:c"` into the
colon-less line `"a"` and the line `"b:c"`, exactly as Python's
`splitlines` does. -/
theorem unescape_missing_colon_witness :
    (∃ l ∈ pySplitlines "a\x1cb:c", ¬ ':' ∈ l) ∧
    unescape_dictionary "a\x1cb:c" = Except.error PyExc.valueError :=
  ⟨by decide, unescape_missing_colon "a\x1cb:c" (by decide)⟩

/-! ### C10: escaping invariants -/

/-- C10: `escape_string` output never contains a raw colon, CR or LF; every
non-special character passes through `escChar` unchanged; hence a rendered
`key: value` line splits on its first colon exactly at the key/value
boundary. -/
theorem escape_string_invariants :
    (∀ s : String, ∀ x ∈ (escape_string s).data,
      ¬ x = ':' ∧ ¬ x = '\r' ∧ ¬ x = '\n') ∧
    (∀ c : Char, isSpecial c = false → escChar c = [c]) ∧
    (∀ k v : String,
      splitOnceColon ((escape_string k).data ++ ':' :: ' ' :: (escape_string v).data) =
        some ((escape_string k).data, ' ' :: (escape_string v).data)) := by
  refine ⟨escape_string_chars, escChar_eq_self, ?_⟩
  intro k v
  exact splitOnceColon_append _ _ (fun m => (escape_string_chars k ':' m).1 rfl)

/-- Witness for C10 on concrete strings containing every special character. -/
theorem escape_string_invariants_witness :
    (':' ∈ (escape_string "a:b%\r\n").data → False) ∧
    escChar 'a' = ['a'] ∧
    splitOnceColon ((escape_string "k:").data ++ ':' :: ' ' :: (escape_string "v%").data) =
      some ((escape_string "k:").data, ' ' :: (escape_string "v%").data) :=
  ⟨fun m => (escape_string_invariants.1 "a:b%\r\n" ':' m).1 rfl,
   escape_string_invariants.2.1 'a' (by decide),
   escape_string_invariants.2.2 "k:" "v%"⟩

/-! ### C6: dated events of the metadata document -/

/-- C6 counterexample: with releases
`[("2020-05-01", ""), ("2021-01-10", ".")]` the one `Updated` event carries
`dateInformation = "."`, although `"."` is a null placeholder — the code sets
the attribute on `Updated` events unconditionally. -/
theorem metadata_dates_detail_refuted :
    Except.map MetadataDoc.dates
      (get_entry_metadata "S" "15000" (some (BibRecord.mk
        [[("2020-05-01", ""), ("2021-01-10", ".")]]
        [[AuthorRow.mk "Smith" "J" ""]] true ["T"]))) =
      Except.ok [DateEvent.mk "Available" "2020-05-01" none,
        DateEvent.mk "Updated" "2021-01-10" (some ".")] ∧
    "." ∈ nullValues := ⟨by decide, by decide⟩

/-- C6 amended: when the release loop's rows are `first :: rest` and the
build succeeds, `publicationYear` is the first four characters of the first
row's date, there is exactly one `Available` event for the first row (its
detail attached only when non-empty and not a null placeholder), and one
`Updated` event per later row which always carries that row's detail. -/
theorem metadata_dates_spec (sh e : String) (rec : BibRecord)
    (first : String × String) (rest : List (String × String)) (doc : MetadataDoc)
    (hrel : rec.releaseLoops.head? = some (first :: rest))
    (hok : get_entry_metadata sh e (some rec) = Except.ok doc) :
    doc.publicationYear = pyTake4 first.1 ∧
    doc.dates =
      DateEvent.mk "Available" first.1
        (if ¬ first.2 = "" ∧ ¬ first.2 ∈ nullValues then some first.2 else none) ::
      rest.map (fun r => DateEvent.mk "Updated" r.1 (some r.2)) := by
  simp only [get_entry_metadata] at hok
  rw [hrel] at hok
  cases hauth : rec.authorLoops.head? with
  | none => rw [hauth] at hok; exact Except.noConfusion hok
  | some aRows =>
    rw [hauth] at hok
    cases htit : rec.titleTags.head? with
    | none => rw [htit] at hok; exact Except.noConfusion hok
    | some t =>
      rw [htit] at hok
      injection hok with hdoc
      rw [← hdoc]
      exact ⟨rfl, rfl⟩

/-- Witness for C6 (amended) at the spec's scenario C. -/
theorem metadata_dates_spec_witness :
    (BibRecord.mk [[("2020-05-01", ""), ("2021-01-10", "corrected")]]
        [[AuthorRow.mk "Smith" "J" ""]] true ["T"]).releaseLoops.head? =
      some (("2020-05-01", "") :: [("2021-01-10", "corrected")]) ∧
    get_entry_metadata "S" "bmr1"
        (some (BibRecord.mk [[("2020-05-01", ""), ("2021-01-10", "corrected")]]
          [[AuthorRow.mk "Smith" "J" ""]] true ["T"])) =
      Except.ok (MetadataDoc.mk "SBMR1" ["Smith, J"] "T"
        "Biological Magnetic Resonance Bank" "2020"
        [DateEvent.mk "Available" "2020-05-01" none,
         DateEvent.mk "Updated" "2021-01-10" (some "corrected")] "Dataset") ∧
    ((MetadataDoc.mk "SBMR1" ["Smith, J"] "T"
        "Biological Magnetic Resonance Bank" "2020"
        [DateEvent.mk "Available" "2020-05-01" none,
         DateEvent.mk "Updated" "2021-01-10" (some "corrected")]
        "Dataset").publicationYear = pyTake4 "2020-05-01" ∧
      (MetadataDoc.mk "SBMR1" ["Smith, J"] "T"
        "Biological Magnetic Resonance Bank" "2020"
        [DateEvent.mk "Available" "2020-05-01" none,
         DateEvent.mk "Updated" "2021-01-10" (some "corrected")]
        "Dataset").dates =
        DateEvent.mk "Available" "2020-05-01"
          (if ¬ ("" : String) = "" ∧ ¬ ("" : String) ∈ nullValues then some ""
           else none) ::
        [("2021-01-10", "corrected")].map
          (fun r => DateEvent.mk "Updated" r.1 (some r.2))) :=
  ⟨rfl, by decide,
   metadata_dates_spec "S" "bmr1"
     (BibRecord.mk [[("2020-05-01", ""), ("2021-01-10", "corrected")]]
       [[AuthorRow.mk "Smith" "J" ""]] true ["T"])
     ("2020-05-01", "") [("2021-01-10", "corrected")] _ rfl (by decide)⟩

/-! ### C7: LookupError on missing provenance -/

/-- C7 counterexample: a record whose `entry_author` loop is present but has
no author rows does not fail — the builder returns a document with an empty
creator list, contradicting "fails whenever ... no author entries". -/
theorem metadata_empty_authors_refuted :
    get_entry_metadata "S" "bmr2"
        (some (BibRecord.mk [[("2020-01-01", "")]]
          [([] : List AuthorRow)] true ["T"])) =
      Except.ok (MetadataDoc.mk "SBMR2" [] "T"
        "Biological Magnetic Resonance Bank" "2020"
        [DateEvent.mk "Available" "2020-01-01" none] "Dataset") := by decide

/-- C7 amended: the builder fails — always with `IndexError`, a subclass of
`LookupError` — whenever there is no `release` loop, the release loop has no
rows, or there is no `entry_author` loop; a present-but-empty author loop,
however, succeeds. -/
theorem metadata_lookup_error (sh e : String) (rec : BibRecord)
    (h : rec.releaseLoops = [] ∨ rec.releaseLoops.head? = some [] ∨
      rec.authorLoops = []) :
    get_entry_metadata sh e (some rec) = Except.error PyExc.indexError ∧
    isLookupError PyExc.indexError = true := by
  refine ⟨?_, rfl⟩
  simp only [get_entry_metadata]
  rcases h with h | h | h
  · rw [h]
    rfl
  · rw [h]
    cases hauth : rec.authorLoops.head? with
    | none => rfl
    | some aRows =>
      cases htit : rec.titleTags.head? with
      | none => rfl
      | some t => rfl
  · cases hrel : rec.releaseLoops.head? with
    | none => rfl
    | some rRows =>
      rw [h]
      rfl

/-- Witness for C7 (amended): a record with no `release` loop at all. -/
theorem metadata_lookup_error_witness :
    ((BibRecord.mk [] [] true []).releaseLoops = [] ∨
      (BibRecord.mk [] [] true []).releaseLoops.head? = some [] ∨
      (BibRecord.mk [] [] true []).authorLoops = []) ∧
    (get_entry_metadata "S" "x" (some (BibRecord.mk [] [] true [])) =
        Except.error PyExc.indexError ∧
      isLookupError PyExc.indexError = true) :=
  ⟨Or.inl rfl, metadata_lookup_error "S" "x" (BibRecord.mk [] [] true []) (Or.inl rfl)⟩

/-! ### C1: reconciler always writes -/

/-- C1 counterexample: even when the registry already holds a record
field-equal to the freshly built document, `create_or_update_doi` issues its
two PUT writes (it performs no read at all). -/
theorem create_or_update_no_write_refuted :
    ¬ (∀ (sh e : String) (rec : Option BibRecord)
        (registry : String → Option MetadataDoc) (doc : MetadataDoc),
        get_entry_metadata sh e rec = Except.ok doc →
        registry (determine_doi sh e) = some doc →
        ∀ op ∈ create_or_update_ops sh e rec, isWriteOp op = false) := by
  intro h
  have h2 := h "S" "15000"
    (some (BibRecord.mk [[("2020-01-01", "")]] [[AuthorRow.mk "A" "B" ""]]
      true ["T"]))
    (fun _ => some (MetadataDoc.mk "SBMR15000" ["A, B"] "T"
      "Biological Magnetic Resonance Bank" "2020"
      [DateEvent.mk "Available" "2020-01-01" none] "Dataset"))
    (MetadataDoc.mk "SBMR15000" ["A, B"] "T"
      "Biological Magnetic Resonance Bank" "2020"
      [DateEvent.mk "Available" "2020-01-01" none] "Dataset")
    (by decide) rfl
  have h3 := h2 (NetOp.putMetadata "SBMR15000"
    (MetadataDoc.mk "SBMR15000" ["A, B"] "T"
      "Biological Magnetic Resonance Bank" "2020"
      [DateEvent.mk "Available" "2020-01-01" none] "Dataset")) (by decide)
  exact absurd h3 (by decide)

/-- C1 amended: whenever the metadata build succeeds,
`create_or_update_doi` unconditionally issues the metadata PUT followed by
the DOI/URL PUT, and never issues a read of the existing record; there is no
comparison step. -/
theorem create_or_update_always_writes (sh e : String) (rec : Option BibRecord)
    (doc : MetadataDoc) (hok : get_entry_metadata sh e rec = Except.ok doc) :
    create_or_update_ops sh e rec =
      [NetOp.putMetadata (determine_doi sh e) doc,
       NetOp.putDoi (determine_doi sh e)
         ("doi=" ++ determine_doi sh e ++ "\nurl=" ++ content_url e)] ∧
    (∀ op ∈ create_or_update_ops sh e rec, isReadOp op = false) := by
  have hops : create_or_update_ops sh e rec =
      [NetOp.putMetadata (determine_doi sh e) doc,
       NetOp.putDoi (determine_doi sh e)
         ("doi=" ++ determine_doi sh e ++ "\nurl=" ++ content_url e)] := by
    unfold create_or_update_ops
    rw [hok]
  refine ⟨hops, ?_⟩
  intro op hop
  rw [hops] at hop
  rcases List.mem_cons.mp hop with h | h
  · rw [h]; rfl
  · rw [List.mem_singleton] at h; rw [h]; rfl

/-- Witness for C1 (amended) on a concrete record. -/
theorem create_or_update_always_writes_witness :
    get_entry_metadata "S" "15000"
        (some (BibRecord.mk [[("2020-01-01", "")]] [[AuthorRow.mk "A" "B" ""]]
          true ["T"])) =
      Except.ok (MetadataDoc.mk "SBMR15000" ["A, B"] "T"
        "Biological Magnetic Resonance Bank" "2020"
        [DateEvent.mk "Available" "2020-01-01" none] "Dataset") ∧
    (create_or_update_ops "S" "15000"
        (some (BibRecord.mk [[("2020-01-01", "")]] [[AuthorRow.mk "A" "B" ""]]
          true ["T"])) =
      [NetOp.putMetadata (determine_doi "S" "15000")
        (MetadataDoc.mk "SBMR15000" ["A, B"] "T"
          "Biological Magnetic Resonance Bank" "2020"
          [DateEvent.mk "Available" "2020-01-01" none] "Dataset"),
       NetOp.putDoi (determine_doi "S" "15000")
         ("doi=" ++ determine_doi "S" "15000" ++ "\nurl=" ++ content_url "15000")] ∧
     ∀ op ∈ create_or_update_ops "S" "15000"
        (some (BibRecord.mk [[("2020-01-01", "")]] [[AuthorRow.mk "A" "B" ""]]
          true ["T"])), isReadOp op = false) :=
  ⟨by decide,
   create_or_update_always_writes "S" "15000"
     (some (BibRecord.mk [[("2020-01-01", "")]] [[AuthorRow.mk "A" "B" ""]]
       true ["T"]))
     (MetadataDoc.mk "SBMR15000" ["A, B"] "T"
       "Biological Magnetic Resonance Bank" "2020"
       [DateEvent.mk "Available" "2020-01-01" none] "Dataset")
     (by decide)⟩

/-! ### C8: withdraw -/

/-- C8 counterexample: `withdraw` never reads the current status, so even on
a record whose status is already `"unavailable"` it does not skip the write. -/
theorem withdraw_idempotent_refuted :
    ¬ (∀ (sh e : String) (status : String → String),
        status (determine_doi sh e) = "unavailable" → withdraw_ops sh e = []) := by
  intro h
  have h2 := h "S" "15000" (fun _ => "unavailable") rfl
  exact absurd h2 (by decide)

/-- C8 amended: `withdraw` performs no read and always issues exactly one
status-transition write (the POST of
`_status: unavailable | withdrawn by author`), independent of the record's
current status. -/
theorem withdraw_single_write (sh e : String) :
    withdraw_ops sh e =
      [NetOp.post ("https://ez.datacite.org/id/" ++ determine_doi sh e)
        (escape_dictionary [("_status", "unavailable | withdrawn by author")])] ∧
    (∀ op ∈ withdraw_ops sh e, isWriteOp op = true) ∧
    (∀ op ∈ withdraw_ops sh e, isReadOp op = false) := by
  refine ⟨rfl, ?_, ?_⟩ <;> intro op hop <;>
    simp only [withdraw_ops, List.mem_singleton] at hop <;> rw [hop] <;> rfl

/-- Witness for C8 (amended). -/
theorem withdraw_single_write_witness :
    withdraw_ops "S" "15000" =
      [NetOp.post ("https://ez.datacite.org/id/" ++ determine_doi "S" "15000")
        (escape_dictionary [("_status", "unavailable | withdrawn by author")])] ∧
    isWriteOp (NetOp.post ("https://ez.datacite.org/id/" ++ determine_doi "S" "15000")
      (escape_dictionary [("_status", "unavailable | withdrawn by author")])) = true :=
  ⟨(withdraw_single_write "S" "15000").1,
   (withdraw_single_write "S" "15000").2.1 _ (by decide)⟩

/-! ### C2: retry budget -/

/-- C2 counterexample: when every attempt fails with an HTTP error, the
retry delays are `2, 4, ..., 128`, whose total `254` exceeds the configured
cap `128` (the cap bounds each single delay, not the total sleep). -/
theorem retry_sleep_cap_refuted :
    (create_or_update_doi (fun _ => Except.error PyExc.httpError) 1 0
        Nat.one_pos).sleeps = [2, 4, 8, 16, 32, 64, 128] ∧
    (create_or_update_doi (fun _ => Except.error PyExc.httpError) 1 0
        Nat.one_pos).attempts = 8 ∧
    ¬ ((create_or_update_doi (fun _ => Except.error PyExc.httpError) 1 0
        Nat.one_pos).sleeps.sum ≤ 128) := by
  have hrun : create_or_update_doi (fun _ => Except.error PyExc.httpError) 1 0
      Nat.one_pos =
      ⟨8, [2, 4, 8, 16, 32, 64, 128], Except.ok ReconcileOutcome.failedLogged⟩ := by
    simp [create_or_update_doi, isHTTPError]
  rw [hrun]
  refine ⟨rfl, rfl, by norm_num⟩

/-- Recursion invariant of the retry loop: starting from timeout `t ≤ 128`,
the sleeps are the geometric run `t*2, t*4, ..., t*2^m` with `t*2^m ≤ 128`,
and there is exactly one more attempt than sleeps. -/
theorem create_or_update_doi_shape (d : Nat) :
    ∀ t, 129 - t ≤ d → 0 < t → t ≤ 128 →
      ∀ (k : Nat) (body : Nat → Except PyExc Unit) (ht : 0 < t),
      ∃ m, (create_or_update_doi body t k ht).sleeps =
          (List.range m).map (fun i => t * 2 ^ (i + 1)) ∧
        (create_or_update_doi body t k ht).attempts = m + 1 ∧
        t * 2 ^ m ≤ 128 := by
  induction d with
  | zero => intro t hd ht hle; omega
  | succ d ih =>
    intro t hd ht hle k body ht2
    rw [create_or_update_doi]
    cases hb : body k with
    | ok u => exact ⟨0, by simp, by simp, by simpa using hle⟩
    | error e =>
      by_cases hh : isHTTPError e = true
      · by_cases h2 : t * 2 ≤ 128
        · obtain ⟨m, hs, ha, hbound⟩ :=
            ih (t * 2) (by omega) (by omega) h2 (k + 1) body (by omega)
          refine ⟨m + 1, ?_, ?_, ?_⟩
          · simp only [hh, if_true, dif_pos h2, hs]
            rw [List.range_succ_eq_map, List.map_cons, List.map_map]
            have htail : List.map (fun i => t * 2 * 2 ^ (i + 1)) (List.range m) =
                List.map ((fun i => t * 2 ^ (i + 1)) ∘ Nat.succ) (List.range m) := by
              apply List.map_congr_left
              intro i _
              show t * 2 * 2 ^ (i + 1) = t * 2 ^ (i + 1 + 1)
              ring
            rw [show t * 2 ^ (0 + 1) = t * 2 from by ring, htail]
          · simp only [hh, if_true, dif_pos h2, ha]
          · have hp : t * 2 ^ (m + 1) = t * 2 * 2 ^ m := by ring
            omega
        · exact ⟨0, by simp [hh, dif_neg h2], by simp [hh, dif_neg h2],
            by simpa using hle⟩
      · by_cases hio : isIOError e = true
        · exact ⟨0, by simp [hh, hio], by simp [hh, hio], by simpa using hle⟩
        · exact ⟨0, by simp [hh, hio], by simp [hh, hio], by simpa using hle⟩

/-- C2 amended: starting from the default timeout 1, the retry loop makes at
most `ceil(log2(128/1)) + 1 = 8` attempts, each retry delay doubles the
previous one (`2, 4, ..., 2^m` with `m ≤ 7`), and the total retry sleep is
at most `254 = 2*128 - 2` — which can exceed the cap 128 itself. -/
theorem retry_bounds (body : Nat → Except PyExc Unit) (k : Nat) :
    (create_or_update_doi body 1 k Nat.one_pos).attempts ≤ 8 ∧
    (∃ m, m ≤ 7 ∧ (create_or_update_doi body 1 k Nat.one_pos).sleeps =
      (List.range m).map (fun i => 2 ^ (i + 1))) ∧
    (create_or_update_doi body 1 k Nat.one_pos).sleeps.sum ≤ 254 := by
  obtain ⟨m, hs, ha, hbound⟩ :=
    create_or_update_doi_shape 128 1 (by norm_num) (by norm_num) (by norm_num)
      k body Nat.one_pos
  have hm : m ≤ 7 := by
    by_contra hmc
    push_neg at hmc
    have h8 : (2 : Nat) ^ 8 ≤ 2 ^ m := Nat.pow_le_pow_right (by norm_num) hmc
    simp only [one_mul] at hbound
    norm_num at h8
    omega
  have hs1 : (create_or_update_doi body 1 k Nat.one_pos).sleeps =
      (List.range m).map (fun i => 2 ^ (i + 1)) := by
    rw [hs]
    apply List.map_congr_left
    intro i _
    ring
  refine ⟨by omega, ⟨m, hm, hs1⟩, ?_⟩
  rw [hs1]
  interval_cases m <;> decide

/-! ### C3: error propagation at the entry boundary -/

/-- C3 counterexample: a `LookupError` (`IndexError`, as raised for a record
with no releases) is not caught by `create_or_update_doi` — it escapes the
per-entry call, so it would abort the worker processing the batch. -/
theorem per_entry_error_caught_refuted :
    create_or_update_doi (fun _ => Except.error PyExc.indexError) 1 0
        Nat.one_pos =
      RunResult.mk 1 [] (Except.error PyExc.indexError) ∧
    isLookupError PyExc.indexError = true := by
  constructor
  · simp [create_or_update_doi, isHTTPError, isIOError]
  · rfl

/-- C3 amended: only `requests.HTTPError` and `IOError` are caught at the
entry boundary; an exception escapes `create_or_update_doi` exactly when it
is neither (e.g. `ValueError` from the metadata fetch, `IndexError` from
missing bibliographic data), and any escaped exception originated from some
attempt's body. -/
theorem create_or_update_uncaught (d : Nat) :
    ∀ (t : Nat) (body : Nat → Except PyExc Unit) (k : Nat) (ht : 0 < t)
      (e : PyExc), 129 - t ≤ d →
      (create_or_update_doi body t k ht).result = Except.error e →
      isHTTPError e = false ∧ isIOError e = false ∧
        ∃ j, body j = Except.error e := by
  induction d with
  | zero =>
    intro t body k ht e hd hres
    cases hb : body k with
    | ok u =>
      rw [create_or_update_doi, hb] at hres
      simp at hres
    | error e2 =>
      rw [create_or_update_doi, hb] at hres
      by_cases hh : isHTTPError e2 = true
      · have hn : ¬ t * 2 ≤ 128 := by omega
        simp only [hh, if_true, dif_neg hn] at hres
        simp at hres
      · by_cases hio : isIOError e2 = true
        · simp only [if_neg hh, if_pos hio] at hres
          simp at hres
        · simp only [if_neg hh, if_neg hio] at hres
          have he : e2 = e := by simpa using hres
          rw [← he]
          exact ⟨by simpa using hh, by simpa using hio, ⟨k, hb⟩⟩
  | succ d ih =>
    intro t body k ht e hd hres
    cases hb : body k with
    | ok u =>
      rw [create_or_update_doi, hb] at hres
      simp at hres
    | error e2 =>
      rw [create_or_update_doi, hb] at hres
      by_cases hh : isHTTPError e2 = true
      · by_cases h2 : t * 2 ≤ 128
        · simp only [hh, if_true, dif_pos h2] at hres
          exact ih (t * 2) body (k + 1) (by omega) e (by omega) hres
        · simp only [hh, if_true, dif_neg h2] at hres
          simp at hres
      · by_cases hio : isIOError e2 = true
        · simp only [if_neg hh, if_pos hio] at hres
          simp at hres
        · simp only [if_neg hh, if_neg hio] at hres
          have he : e2 = e := by simpa using hres
          rw [← he]
          exact ⟨by simpa using hh, by simpa using hio, ⟨k, hb⟩⟩

/-- Witness for C3 (amended): a `ValueError` from the body escapes. -/
theorem create_or_update_uncaught_witness :
    (create_or_update_doi (fun _ => Except.error PyExc.valueError) 1 0
        Nat.one_pos).result = Except.error PyExc.valueError ∧
    (isHTTPError PyExc.valueError = false ∧ isIOError PyExc.valueError = false ∧
      ∃ j : Nat,
        (fun _ : Nat => (Except.error PyExc.valueError : Except PyExc Unit)) j =
          Except.error PyExc.valueError) := by
  have hres : (create_or_update_doi
      (fun _ : Nat => (Except.error PyExc.valueError : Except PyExc Unit)) 1 0
      Nat.one_pos).result = Except.error PyExc.valueError := by
    simp [create_or_update_doi, isHTTPError, isIOError]
  exact ⟨hres, create_or_update_uncaught 128 1
    (fun _ : Nat => (Except.error PyExc.valueError : Except PyExc Unit)) 0
    Nat.one_pos PyExc.valueError (by norm_num) hres⟩

end DoiAssignment
